import Mathlib

/-!
Verification development for the Khatma claim-coordination server
(`server/src/index.ts`).  The server coordinates exclusive claims over the
30 numbered parts of a "week": users claim and release parts, admins reset a
whole week, and every successful mutation is broadcast to subscribers.

The definitions below are a shallow embedding of the handler code: the
Postgres tables become lists inside a `DB` record, each HTTP handler becomes
a pure function from the database (plus its request inputs and the values the
environment supplies: fresh ids, the clock) to a result, the new database and
the list of broadcast events it emitted.  JavaScript string truthiness and
`Number(...)` parsing are modelled explicitly because the handlers rely on
them.
-/

namespace Khatma

/-! ## JavaScript string helpers -/

/-- Truthiness of a nullable JS string: `null`, `undefined` and `""` are
falsy, every other string is truthy. -/
def truthyStr : Option String → Bool
  | some s => !s.isEmpty
  | none => false

/-- JS `a || b` on nullable strings: keeps `a` when it is truthy, otherwise
falls through to `b`. -/
def jsOrStr (a b : Option String) : Option String :=
  if truthyStr a then a else b

/-- JS `a || null` on a nullable string: a falsy value collapses to `null`. -/
def jsOrNull (a : Option String) : Option String :=
  if truthyStr a then a else none

/-- The JS whitespace class (as used by `\s`, `trim()` and `Number()`):
tab, LF, VT, FF, CR, space, NBSP, the Unicode space separators, the line and
paragraph separators, the narrow and medium mathematical spaces, the
ideographic space and the BOM. -/
def isJsWhitespace (c : Char) : Bool :=
  c == '\t' || c == '\n' || c == Char.ofNat 11 || c == Char.ofNat 12 || c == '\r' ||
  c == ' ' || c == Char.ofNat 0xa0 || c == Char.ofNat 0x1680 ||
  (Char.ofNat 0x2000 ≤ c && c ≤ Char.ofNat 0x200a) ||
  c == Char.ofNat 0x2028 || c == Char.ofNat 0x2029 || c == Char.ofNat 0x202f ||
  c == Char.ofNat 0x205f || c == Char.ofNat 0x3000 || c == Char.ofNat 0xfeff

/-- Removes every whitespace character, modelling `raw.replace(/\s+/g, "")`. -/
def stripWs (s : String) : String :=
  String.mk (s.toList.filter (fun c => !isJsWhitespace c))

/-- JS `s.trim()`: strips leading and trailing whitespace. -/
def jsTrim (s : String) : String :=
  String.mk (((s.toList.dropWhile isJsWhitespace).reverse.dropWhile
    isJsWhitespace).reverse)

/-- Whether a string starts with the character `+`. -/
def startsWithPlus (s : String) : Bool :=
  match s.toList with
  | '+' :: _ => true
  | _ => false

/-- The source's `normalizePhone`: falsy input gives `null`; otherwise all
whitespace is removed and a leading `+` is ensured (when the cleaned string
does not already start with `+`, the `replace(/^\+/, "")` is a no-op and a
`+` is prepended). -/
def normalizePhone : Option String → Option String
  | none => none
  | some raw =>
    if raw.isEmpty then none
    else
      let cleaned := stripWs raw
      if startsWithPlus cleaned then some cleaned
      else some ("+" ++ cleaned)

/-! ## JavaScript `Number(string)` parsing

The claim/release handlers convert the `:number` path segment with
`Number(number)` and reject the request only when the result is `NaN`.
`JsNum` is the parse result for non-`NaN` outcomes; `jsNumber` returns
`none` exactly when JS would produce `NaN`.  Finite values are kept exactly,
as scaled integers `m · 10^e`. -/

inductive JsNum where
  | fin (m e : ℤ)
  | posInf
  | negInf
deriving DecidableEq

/-- Numeric value of a finite parse result `fin m e`, namely `m · 10^e`; the
infinite cases never match a part row and are given a junk value only to
keep payloads total. -/
def jsNumVal : JsNum → ℚ
  | .fin m e => (m : ℚ) * (10 : ℚ) ^ e
  | .posInf => 0
  | .negInf => 0

def natOfDigits (cs : List Char) : Nat :=
  cs.foldl (fun a c => a * 10 + (c.toNat - 48)) 0

def isDigits (cs : List Char) : Bool :=
  !cs.isEmpty && cs.all (·.isDigit)

/-- Splits a character list at the first character satisfying `p`; the second
component is `none` when no such character occurs. -/
def splitOnFirst (p : Char → Bool) : List Char → List Char × Option (List Char)
  | [] => ([], none)
  | c :: cs =>
    if p c then ([], some cs)
    else
      let (a, r) := splitOnFirst p cs
      (c :: a, r)

/-- Decimal mantissa as an exact scaled integer `(m, e)` with value
`m · 10^e`: the forms `digits`, `digits.digits?`, and `.digits`. -/
def parseMantissa (cs : List Char) : Option (ℤ × ℤ) :=
  match splitOnFirst (fun c => c == '.') cs with
  | (ip, none) => if isDigits ip then some ((natOfDigits ip : ℤ), 0) else none
  | (ip, some fp) =>
    if ip.all (·.isDigit) && fp.all (·.isDigit) && !(ip.isEmpty && fp.isEmpty) then
      some ((natOfDigits (ip ++ fp) : ℤ), -(fp.length : ℤ))
    else none

/-- Exponent part after `e`/`E`: an optional sign followed by digits. -/
def parseExp : List Char → Option ℤ
  | '+' :: ds => if isDigits ds then some ((natOfDigits ds : ℤ)) else none
  | '-' :: ds => if isDigits ds then some (-(natOfDigits ds : ℤ)) else none
  | ds => if isDigits ds then some ((natOfDigits ds : ℤ)) else none

/-- Decimal literal with an optional exponent, as a scaled integer. -/
def parseDec (cs : List Char) : Option (ℤ × ℤ) :=
  match splitOnFirst (fun c => c == 'e' || c == 'E') cs with
  | (m, none) => parseMantissa m
  | (m, some ecs) =>
    match parseMantissa m, parseExp ecs with
    | some q, some e => some (q.1, q.2 + e)
    | _, _ => none

def hexDigitVal (c : Char) : Option Nat :=
  if c.isDigit then some (c.toNat - 48)
  else if 'a' ≤ c && c ≤ 'f' then some (c.toNat - 87)
  else if 'A' ≤ c && c ≤ 'F' then some (c.toNat - 55)
  else none

def radixVal (base : Nat) : List Char → Nat → Option Nat
  | [], acc => some acc
  | c :: rest, acc =>
    match hexDigitVal c with
    | some v => if v < base then radixVal base rest (acc * base + v) else none
    | none => none

def parseRadix (base : Nat) (cs : List Char) : Option (ℤ × ℤ) :=
  if cs.isEmpty then none
  else (radixVal base cs 0).map (fun n => ((n : ℤ), 0))

/-- Unsigned tail of a numeric literal: `Infinity` or a decimal literal. -/
def parseUnsignedTail (cs : List Char) : Option JsNum :=
  if cs == "Infinity".toList then some .posInf
  else (parseDec cs).map (fun p => .fin p.1 p.2)

/-- JS `Number(s)` restricted to the non-`NaN` outcomes: trims whitespace,
maps the empty string to `0`, and accepts signed decimal literals (with
optional fraction and exponent), `Infinity`, and unsigned hex / octal /
binary literals.  Returns `none` exactly when JS yields `NaN`. -/
def jsNumber (s : String) : Option JsNum :=
  let cs := (jsTrim s).toList
  match cs with
  | [] => some (.fin 0 0)
  | '+' :: rest => parseUnsignedTail rest
  | '-' :: rest =>
    match parseUnsignedTail rest with
    | some .posInf => some .negInf
    | some (.fin m e) => some (.fin (-m) e)
    | _ => none
  | '0' :: 'x' :: rest => (parseRadix 16 rest).map (fun p => .fin p.1 p.2)
  | '0' :: 'X' :: rest => (parseRadix 16 rest).map (fun p => .fin p.1 p.2)
  | '0' :: 'o' :: rest => (parseRadix 8 rest).map (fun p => .fin p.1 p.2)
  | '0' :: 'O' :: rest => (parseRadix 8 rest).map (fun p => .fin p.1 p.2)
  | '0' :: 'b' :: rest => (parseRadix 2 rest).map (fun p => .fin p.1 p.2)
  | '0' :: 'B' :: rest => (parseRadix 2 rest).map (fun p => .fin p.1 p.2)
  | _ => parseUnsignedTail cs

/-! ## Data model

Rows of the three tables used by the handlers, and the in-memory database. -/

structure User where
  id : String
  firebase_uid : String
  name : Option String
  phone : Option String
  is_admin : Bool
deriving DecidableEq

structure Week where
  id : String
  week_key : String
deriving DecidableEq

structure PartRec where
  week_id : String
  number : Nat
  claimed_by : Option String
  claimed_name : Option String
  claimed_at : Option Nat
deriving DecidableEq

structure DB where
  users : List User
  weeks : List Week
  parts : List PartRec
deriving DecidableEq

/-- Environment-supplied admin policy: `DEFAULT_ADMIN_NAME` and
`ADMIN_PHONES`. -/
structure Config where
  adminName : String
  adminPhones : List String
deriving DecidableEq

/-- The optional `profile` hint of a request body. -/
structure Profile where
  name : Option String
  phone : Option String
deriving DecidableEq

/-- Business errors returned by the handlers. -/
inductive Err where
  | BAD_REQUEST
  | PART_NOT_FOUND
  | ALREADY_CLAIMED
  | NOT_OWNER
  | NOT_ADMIN
  | USER_NOT_FOUND
  | WEEK_REQUIRED
  | PHONE_REQUIRED
  | CLAIM_FAILED
  | RELEASE_FAILED
deriving DecidableEq

/-- Response/broadcast payload row: the shape `fetchParts` and the part
handlers serialize (`number, claimed_by, claimed_name, claimed_is_admin`). -/
structure PartRow where
  number : ℚ
  claimed_by : Option String
  claimed_name : Option String
  claimed_is_admin : Option Bool
deriving DecidableEq

/-- Socket.io broadcast events. -/
inductive Ev where
  | partUpdate (weekId : String) (payload : PartRow)
  | weekReset (weekId : String) (parts : List PartRow)
deriving DecidableEq

/-- Outcome of a handler: the HTTP-level result, the database after the
request, and the broadcast events emitted (in order). -/
structure HOut (α : Type) where
  result : Except Err α
  db : DB
  events : List Ev

/-! ## IdentityRegistry -/

/-- The source's `computeAdminFlag`: the current flag, or the name equals the
configured admin name (both truthy), or the (truthy) phone occurs in the
configured admin phone list. -/
def computeAdminFlag (cfg : Config) (name phone : Option String) (current : Bool) : Bool :=
  let matchName := !cfg.adminName.isEmpty && truthyStr name && (name == some cfg.adminName)
  let matchPhone :=
    truthyStr phone &&
      (match phone with
       | some p => cfg.adminPhones.contains p
       | none => false)
  current || matchName || matchPhone

/-- The source's `getUserById`: lookup by id, `USER_NOT_FOUND` when absent. -/
def getUserById (db : DB) (id : String) : Except Err User :=
  match db.users.find? (fun u => u.id == id) with
  | some u => .ok u
  | none => .error .USER_NOT_FOUND

/-- The source's `updateUserProfile`: merges the truthy profile fields over
the stored record (`profile.name?.trim() || existing.name`,
`normalizePhone(profile.phone || existing.phone)`), recomputes the admin flag
from the merged fields and the previous flag, and stores the result. -/
def updateUserProfile (cfg : Config) (db : DB) (userId : String) (profile : Profile) :
    Except Err (DB × User) :=
  match getUserById db userId with
  | .error e => .error e
  | .ok existing =>
    let name := jsOrStr (profile.name.map jsTrim) existing.name
    let phone := normalizePhone (jsOrStr profile.phone existing.phone)
    let adm := computeAdminFlag cfg name phone existing.is_admin
    let updated : User := { existing with name := name, phone := phone, is_admin := adm }
    .ok ({ db with users := db.users.map (fun u => if u.id == userId then updated else u) },
         updated)

/-- The source's `loginUser`: trims the name (`|| null`), requires a
normalizable phone, then updates the user stored under that phone or inserts
a new one (with a generated id and auth key). -/
def loginUser (cfg : Config) (db : DB) (nameInput phoneInput : String)
    (newId newAuthKey : String) : Except Err (DB × User) :=
  let name := jsOrNull (some (jsTrim nameInput))
  match normalizePhone (some phoneInput) with
  | none => .error .PHONE_REQUIRED
  | some phone =>
    match db.users.find? (fun u => u.phone == some phone) with
    | some current =>
      let newName := jsOrStr name current.name
      let adm := computeAdminFlag cfg newName (some phone) current.is_admin
      let updated : User := { current with name := newName, phone := some phone, is_admin := adm }
      .ok ({ db with users := db.users.map (fun u => if u.id == current.id then updated else u) },
           updated)
    | none =>
      let adm := computeAdminFlag cfg name (some phone) false
      let u : User := ⟨newId, newAuthKey, name, some phone, adm⟩
      .ok ({ db with users := db.users ++ [u] }, u)

/-- Shared prelude of the claim and reset handlers: resolve the session user
and, when the request carries a truthy profile name or phone, update the
stored profile first. -/
def resolveUser (cfg : Config) (db : DB) (userId : String) (profile : Profile) :
    Except Err (DB × User) :=
  match getUserById db userId with
  | .error e => .error e
  | .ok user =>
    if truthyStr profile.name || truthyStr profile.phone then
      updateUserProfile cfg db userId profile
    else .ok (db, user)

/-! ## WeekDirectory -/

/-- The 30 free parts inserted with a new week
(`generate_series(1,30)`). -/
def freshWeekParts (weekId : String) : List PartRec :=
  (List.range' 1 30).map (fun k => ⟨weekId, k, none, none, none⟩)

/-- The source's `ensureWeek`: return the id of the week stored under the
key, else insert a new week (with the store-assigned `newId`) together with
its 30 parts.  A concurrent insert between the select and the insert is not
caught here; `ensureWeekRaced` below makes that window explicit. -/
def ensureWeek (db : DB) (weekKey : String) (newId : String) : String × DB :=
  match db.weeks.find? (fun w => w.week_key == weekKey) with
  | some w => (w.id, db)
  | none =>
    (newId,
     { db with
        weeks := db.weeks ++ [⟨newId, weekKey⟩],
        parts := db.parts ++ freshWeekParts newId })

/-- The source's `getWeek`: select by key, falling back to `ensureWeek`. -/
def getWeek (db : DB) (weekKey : String) (newId : String) : (String × String) × DB :=
  match db.weeks.find? (fun w => w.week_key == weekKey) with
  | some w => ((w.id, w.week_key), db)
  | none =>
    let (wid, db1) := ensureWeek db weekKey newId
    ((wid, weekKey), db1)

/-- Possible failure of a store statement. -/
inductive DbFailure where
  | uniqueViolation
deriving DecidableEq

/-- `ensureWeek` with its two store round-trips made explicit so that a
concurrent creation of the same key is representable: `foundAtSelect` is the
select's result, and when the key was absent the insert either succeeds
returning `newId` or fails the `week_key` uniqueness constraint because a
concurrent creation committed in between (`raceInsertConflict`).  Mirroring
the source, there is no catch around the insert: the constraint error is the
operation's result. -/
def ensureWeekRaced (foundAtSelect : Option String) (raceInsertConflict : Bool)
    (newId : String) : Except DbFailure String :=
  match foundAtSelect with
  | some id => .ok id
  | none => if raceInsertConflict then .error .uniqueViolation else .ok newId

/-! ## Snapshot fetch -/

/-- Insertion sort by part number, modelling `order by p.number asc`. -/
def insertByNumber (p : PartRec) : List PartRec → List PartRec
  | [] => [p]
  | q :: rest =>
    if p.number ≤ q.number then p :: q :: rest else q :: insertByNumber p rest

def sortByNumber : List PartRec → List PartRec
  | [] => []
  | p :: rest => insertByNumber p (sortByNumber rest)

/-- One row of `fetchParts`: the part's fields plus the left-joined
`claimed_is_admin` of the claiming user. -/
def partToRow (db : DB) (p : PartRec) : PartRow :=
  ⟨(p.number : ℚ), p.claimed_by, p.claimed_name,
   match p.claimed_by with
   | some uid => (db.users.find? (fun u => u.id == uid)).map (fun u => u.is_admin)
   | none => none⟩

/-- The source's `fetchParts`: the parts of a week ordered by number, joined
with the claimant's admin flag. -/
def fetchParts (db : DB) (weekId : String) : List PartRow :=
  (sortByNumber (db.parts.filter (fun p => p.week_id == weekId))).map (partToRow db)

/-- The `GET /api/weeks/:weekKey` handler: get-or-create the week, then
return its snapshot.  Emits no events. -/
def getWeekHandler (db : DB) (weekKey : String) (newId : String) :
    HOut (String × String × List PartRow) :=
  if weekKey.isEmpty then ⟨.error .WEEK_REQUIRED, db, []⟩
  else
    let ((wid, wkey), db1) := getWeek db weekKey newId
    ⟨.ok (wid, wkey, fetchParts db1 wid), db1, []⟩

/-! ## ClaimCoordinator -/

/-- Whether the exact decimal `m · 10^e` equals the natural number `k`,
computed on integers (see `finEqNat_correct`). -/
def finEqNat (m e : ℤ) (k : ℕ) : Bool :=
  if 0 ≤ e then m * 10 ^ e.toNat == (k : ℤ) else m == (k : ℤ) * 10 ^ (-e).toNat

/-- Value-level row predicate for `where week_id=$1 and number=$2`: the
parsed path number denotes the exact value `m · 10^e`, compared against the
integer `number` column (see `partMatchesInt_eq_of_bind` for the connection
with the bound parameter the store actually receives). -/
def partMatches (weekId : String) (n : JsNum) (p : PartRec) : Bool :=
  p.week_id == weekId &&
    (match n with
     | .fin m e => finEqNat m e p.number
     | _ => false)

/-- The int4 range filter of the store: an integer outside the column type's
range makes the statement raise (`integer out of range`). -/
def pgRangeFilter (i : ℤ) : Option ℤ :=
  if -2147483648 ≤ i ∧ i ≤ 2147483647 then some i else none

/-- Binding the parsed JS number as the `number=$2` parameter: the driver
serializes the number as text and Postgres parses that text against the
`integer` part-number column, so the bind yields the integer exactly for
integral values inside the int4 range; a non-integral value (whose text form
carries a decimal point, e.g. `2.5`), an infinity, or an out-of-range
integer makes the statement raise, and the route's catch turns that into the
generic 500 failure instead of a business error. -/
def pgIntParam : JsNum → Option ℤ
  | .fin m e =>
    if 0 ≤ e then pgRangeFilter (m * 10 ^ e.toNat)
    else if m % (10 : ℤ) ^ (-e).toNat == 0 then
      pgRangeFilter (m / (10 : ℤ) ^ (-e).toNat)
    else none
  | .posInf => none
  | .negInf => none

/-- The row predicate as executed by the store, with the successfully bound
integer parameter. -/
def partMatchesInt (weekId : String) (i : ℤ) (p : PartRec) : Bool :=
  p.week_id == weekId && ((p.number : ℤ) == i)

/-- The `POST /api/weeks/:weekId/parts/:number/claim` handler.  Validates the
path, resolves (and possibly profile-updates) the session user, binds the
parsed number against the integer column (a failing bind raises and the
route's catch answers the generic `CLAIM_FAILED`), locks the part row, and
either fails (`PART_NOT_FOUND`, `ALREADY_CLAIMED`, both without touching the
parts table) or writes `claimed_by, claimed_name, claimed_at` together,
commits, and broadcasts the new payload. -/
def claimPart (cfg : Config) (db : DB) (sessionUserId weekId numberStr : String)
    (profile : Profile) (now : Nat) : HOut PartRow :=
  match jsNumber numberStr with
  | none => ⟨.error .BAD_REQUEST, db, []⟩
  | some n =>
    if weekId.isEmpty then ⟨.error .BAD_REQUEST, db, []⟩
    else
      match resolveUser cfg db sessionUserId profile with
      | .error e => ⟨.error e, db, []⟩
      | .ok (db1, user) =>
        match pgIntParam n with
        | none => ⟨.error .CLAIM_FAILED, db1, []⟩
        | some i =>
          match db1.parts.find? (partMatchesInt weekId i) with
          | none => ⟨.error .PART_NOT_FOUND, db1, []⟩
          | some part =>
            if truthyStr part.claimed_by then ⟨.error .ALREADY_CLAIMED, db1, []⟩
            else
              let claimedName := jsOrStr (profile.name.map jsTrim) (jsOrNull user.name)
              let db2 :=
                { db1 with
                   parts := db1.parts.map (fun p =>
                     if partMatchesInt weekId i p then
                       { p with claimed_by := some user.id, claimed_name := claimedName,
                                claimed_at := some now }
                     else p) }
              let payload : PartRow :=
                ⟨jsNumVal n, some user.id, claimedName, some user.is_admin⟩
              ⟨.ok payload, db2, [.partUpdate weekId payload]⟩

/-- The `POST /api/weeks/:weekId/parts/:number/release` handler.  Ownership
is exact match on `claimed_by`; a free part or a different owner gives
`NOT_OWNER` with no mutation, the owner clears all three claimed fields and
the cleared payload is broadcast. -/
def releasePart (db : DB) (sessionUserId weekId numberStr : String) : HOut PartRow :=
  match jsNumber numberStr with
  | none => ⟨.error .BAD_REQUEST, db, []⟩
  | some n =>
    if weekId.isEmpty then ⟨.error .BAD_REQUEST, db, []⟩
    else
      match getUserById db sessionUserId with
      | .error e => ⟨.error e, db, []⟩
      | .ok user =>
        match pgIntParam n with
        | none => ⟨.error .RELEASE_FAILED, db, []⟩
        | some i =>
          match db.parts.find? (partMatchesInt weekId i) with
          | none => ⟨.error .PART_NOT_FOUND, db, []⟩
          | some part =>
            if !truthyStr part.claimed_by || part.claimed_by != some user.id then
              ⟨.error .NOT_OWNER, db, []⟩
            else
              let db1 :=
                { db with
                   parts := db.parts.map (fun p =>
                     if partMatchesInt weekId i p then
                       { p with claimed_by := none, claimed_name := none, claimed_at := none }
                     else p) }
              let payload : PartRow := ⟨jsNumVal n, none, none, none⟩
              ⟨.ok payload, db1, [.partUpdate weekId payload]⟩

/-- The `POST /api/weeks/:weekKey/reset` handler.  Resolves the user (with an
optional profile merge), requires the resolved admin flag, get-or-creates the
week, clears every part of the week in one statement, commits, and broadcasts
the fresh snapshot. -/
def resetWeek (cfg : Config) (db : DB) (sessionUserId weekKey : String)
    (profile : Profile) (newWeekId : String) : HOut (String × List PartRow) :=
  if weekKey.isEmpty then ⟨.error .WEEK_REQUIRED, db, []⟩
  else
    match resolveUser cfg db sessionUserId profile with
    | .error e => ⟨.error e, db, []⟩
    | .ok (db1, user) =>
      if !user.is_admin then ⟨.error .NOT_ADMIN, db1, []⟩
      else
        let ((wid, _), db2) := getWeek db1 weekKey newWeekId
        let db3 :=
          { db2 with
             parts := db2.parts.map (fun p =>
               if p.week_id == wid then
                 { p with claimed_by := none, claimed_name := none, claimed_at := none }
               else p) }
        let snapshot := fetchParts db3 wid
        ⟨.ok (wid, snapshot), db3, [.weekReset wid snapshot]⟩

/-! ## Reachable database states -/

/-- Database after a login request (failures leave the store unchanged). -/
def loginDb (cfg : Config) (db : DB) (nameInput phoneInput newId newAuthKey : String) : DB :=
  match loginUser cfg db nameInput phoneInput newId newAuthKey with
  | .ok (db1, _) => db1
  | .error _ => db

/-- Database after a profile-update request. -/
def profileDb (cfg : Config) (db : DB) (userId : String) (profile : Profile) : DB :=
  match updateUserProfile cfg db userId profile with
  | .ok (db1, _) => db1
  | .error _ => db

/-- Databases reachable from a fresh store (no weeks, no parts, any initial
set of users) by the server's operations.  Store-generated week ids are
modelled as arbitrary strings fresh with respect to the existing weeks. -/
inductive Reach (cfg : Config) : DB → Prop where
  | init (users : List User) : Reach cfg ⟨users, [], []⟩
  | login (db : DB) (nm ph newId key : String) (h : Reach cfg db) :
      Reach cfg (loginDb cfg db nm ph newId key)
  | profile (db : DB) (uid : String) (pr : Profile) (h : Reach cfg db) :
      Reach cfg (profileDb cfg db uid pr)
  | fetchWeek (db : DB) (wk newId : String) (h : Reach cfg db)
      (hfresh : ∀ w ∈ db.weeks, w.id ≠ newId) :
      Reach cfg (getWeekHandler db wk newId).db
  | claim (db : DB) (uid wk ns : String) (pr : Profile) (now : Nat) (h : Reach cfg db) :
      Reach cfg (claimPart cfg db uid wk ns pr now).db
  | release (db : DB) (uid wk ns : String) (h : Reach cfg db) :
      Reach cfg (releasePart db uid wk ns).db
  | reset (db : DB) (uid wk : String) (pr : Profile) (newId : String) (h : Reach cfg db)
      (hfresh : ∀ w ∈ db.weeks, w.id ≠ newId) :
      Reach cfg (resetWeek cfg db uid wk pr newId).db

/-! ## Invariants -/

/-- Null-consistency of a part's claimed fields as the code maintains it:
`claimed_by` and `claimed_at` are null together, and a part with a null
`claimed_by` has a null `claimed_name` (a claimed part, however, may carry a
null `claimed_name`). -/
def partInv (p : PartRec) : Prop :=
  (p.claimed_by = none ↔ p.claimed_at = none) ∧ (p.claimed_by = none → p.claimed_name = none)

/-- Every part row belongs to a stored week. -/
def partsOwned (db : DB) : Prop :=
  ∀ p ∈ db.parts, ∃ w ∈ db.weeks, p.week_id = w.id

/-- Every stored week owns exactly the parts numbered 1 through 30. -/
def weeksComplete (db : DB) : Prop :=
  ∀ w ∈ db.weeks,
    ((db.parts.filter (fun p => p.week_id == w.id)).map (fun p => p.number)) = List.range' 1 30

/-- The combined store invariant. -/
def StoreInv (db : DB) : Prop :=
  partsOwned db ∧ weeksComplete db ∧ ∀ p ∈ db.parts, partInv p

/-! ## Concrete example states

A configuration with the source's default admin policy, and a few small
databases produced by running the embedded operations, used as witnesses. -/

def exCfg : Config := ⟨"محمد عز الدين", ["+971523783612"]⟩

def dbEmpty : DB := ⟨[], [], []⟩

/-- A database obtained by logging in with a whitespace-only name (the
source trims it to `null`) and then fetching week `"week-1"`. -/
def exDbLogin : DB := loginDb exCfg dbEmpty " " "0501234567" "u1" "fk1"

def exDbLoginWeek : DB := (getWeekHandler exDbLogin "week-1" "w1").db

/-- `exDbLoginWeek` after the name-less user claims part 5. -/
def exDbClaimed : DB := (claimPart exCfg exDbLoginWeek "u1" "w1" "5" ⟨none, none⟩ 1000).db

/-- The part row produced by that claim: claimed, yet with a null
`claimed_name`. -/
def cexPart : PartRec := ⟨"w1", 5, some "u1", none, some 1000⟩

def exUserBob : User := ⟨"u1", "fk1", some "Bob", none, false⟩

def exAdmin : User := ⟨"a1", "fk2", some "Root", none, true⟩

/-- A database with two users (one admin) and the fresh week `"week-1"`. -/
def exDbWeek : DB := (getWeekHandler ⟨[exUserBob, exAdmin], [], []⟩ "week-1" "w1").db

/-- `exDbWeek` after Bob claims part 5. -/
def exDbBobClaim : DB := (claimPart exCfg exDbWeek "u1" "w1" "5" ⟨none, none⟩ 50).db

/-! ## Basic lemmas -/

instance {ε α : Type} [DecidableEq ε] [DecidableEq α] : DecidableEq (Except ε α) := fun a b =>
  match a, b with
  | .ok x, .ok y =>
    if h : x = y then isTrue (congrArg Except.ok h)
    else isFalse (fun c => h (Except.ok.inj c))
  | .error x, .error y =>
    if h : x = y then isTrue (congrArg Except.error h)
    else isFalse (fun c => h (Except.error.inj c))
  | .ok _, .error _ => isFalse Except.noConfusion
  | .error _, .ok _ => isFalse Except.noConfusion

theorem getUserById_id {db : DB} {uid : String} {u : User}
    (h : getUserById db uid = .ok u) : u.id = uid := by
  unfold getUserById at h
  cases hf : db.users.find? (fun v => v.id == uid) with
  | none => rw [hf] at h; exact absurd h (by simp)
  | some v =>
    rw [hf] at h
    cases h
    have := List.find?_some hf
    exact eq_of_beq this

theorem updateUserProfile_parts {cfg : Config} {db : DB} {uid : String} {pr : Profile}
    {db1 : DB} {u : User} (h : updateUserProfile cfg db uid pr = .ok (db1, u)) :
    db1.parts = db.parts ∧ db1.weeks = db.weeks := by
  unfold updateUserProfile at h
  cases hg : getUserById db uid with
  | error e => rw [hg] at h; exact absurd h (by simp)
  | ok existing =>
    rw [hg] at h
    cases h
    exact ⟨rfl, rfl⟩

theorem resolveUser_parts {cfg : Config} {db : DB} {uid : String} {pr : Profile}
    {db1 : DB} {u : User} (h : resolveUser cfg db uid pr = .ok (db1, u)) :
    db1.parts = db.parts ∧ db1.weeks = db.weeks := by
  unfold resolveUser at h
  split at h
  · exact absurd h (by simp)
  · split at h
    · exact updateUserProfile_parts h
    · cases h
      exact ⟨rfl, rfl⟩

theorem resolveUser_ok {cfg : Config} {db : DB} {uid : String} {u : User} (pr : Profile)
    (h : getUserById db uid = .ok u) :
    ∃ db1 u1, resolveUser cfg db uid pr = .ok (db1, u1) ∧ u1.id = uid ∧
      db1.parts = db.parts ∧ db1.weeks = db.weeks := by
  simp only [resolveUser, h]
  by_cases hc : (truthyStr pr.name || truthyStr pr.phone) = true
  · simp only [if_pos hc, updateUserProfile, h]
    refine ⟨_, _, rfl, ?_, rfl, rfl⟩
    simpa using getUserById_id h
  · simp only [if_neg hc]
    exact ⟨db, u, rfl, getUserById_id h, rfl, rfl⟩

theorem claimPart_error_no_events (cfg : Config) (db : DB) (uid wk ns : String)
    (pr : Profile) (now : Nat)
    (h : (claimPart cfg db uid wk ns pr now).result.isOk = false) :
    (claimPart cfg db uid wk ns pr now).events = [] := by
  revert h
  unfold claimPart
  split
  · intro _; rfl
  · split
    · intro _; rfl
    · split
      · intro _; rfl
      · split
        · intro _; rfl
        · split
          · intro _; rfl
          · split
            · intro _; rfl
            · intro hcontra
              simp [Except.isOk, Except.toBool] at hcontra

theorem releasePart_error_no_events (db : DB) (uid wk ns : String)
    (h : (releasePart db uid wk ns).result.isOk = false) :
    (releasePart db uid wk ns).events = [] := by
  revert h
  unfold releasePart
  split
  · intro _; rfl
  · split
    · intro _; rfl
    · split
      · intro _; rfl
      · split
        · intro _; rfl
        · split
          · intro _; rfl
          · split
            · intro _; rfl
            · intro hcontra
              simp [Except.isOk, Except.toBool] at hcontra

theorem resetWeek_error_no_events (cfg : Config) (db : DB) (uid wk : String)
    (pr : Profile) (newId : String)
    (h : (resetWeek cfg db uid wk pr newId).result.isOk = false) :
    (resetWeek cfg db uid wk pr newId).events = [] := by
  revert h
  unfold resetWeek
  split
  · intro _; rfl
  · split
    · intro _; rfl
    · split
      · intro _; rfl
      · intro hcontra
        revert hcontra
        split
        intro hcontra
        simp [Except.isOk, Except.toBool] at hcontra

/-! ## Invariant preservation -/

theorem storeInv_of_eq {db db1 : DB} (hp : db1.parts = db.parts) (hw : db1.weeks = db.weeks)
    (h : StoreInv db) : StoreInv db1 := by
  obtain ⟨h1, h2, h3⟩ := h
  refine ⟨?_, ?_, ?_⟩
  · intro p hp1
    rw [hp] at hp1
    obtain ⟨w, hw1, he⟩ := h1 p hp1
    exact ⟨w, by rw [hw]; exact hw1, he⟩
  · intro w hw1
    rw [hw] at hw1
    rw [hp]
    exact h2 w hw1
  · intro p hp1
    rw [hp] at hp1
    exact h3 p hp1

theorem filter_map_week (l : List PartRec) (f : PartRec → PartRec) (wid : String)
    (hf : ∀ p, (f p).week_id = p.week_id) :
    (l.map f).filter (fun p => p.week_id == wid) =
      (l.filter (fun p => p.week_id == wid)).map f := by
  induction l with
  | nil => rfl
  | cons a t ih =>
    simp only [List.map_cons, List.filter_cons, hf a]
    by_cases h : (a.week_id == wid) = true
    · rw [if_pos h, if_pos h, List.map_cons, ih]
    · rw [if_neg h, if_neg h, ih]

theorem map_number_of_pres (l : List PartRec) (f : PartRec → PartRec)
    (hf : ∀ p, (f p).number = p.number) :
    (l.map f).map (fun p => p.number) = l.map (fun p => p.number) := by
  induction l with
  | nil => rfl
  | cons a t ih => simp only [List.map_cons, hf a, ih]

/-- The claimed-fields bulk update used by claim, release and reset: any
row-condition, any new field values that are null-consistent. -/
theorem storeInv_map_update (db : DB) (c : PartRec → Bool) (a b : Option String)
    (t : Option Nat) (h : StoreInv db)
    (hfields : (a = none ↔ t = none) ∧ (a = none → b = none)) :
    StoreInv { db with parts := db.parts.map (fun p =>
      if c p then { p with claimed_by := a, claimed_name := b, claimed_at := t } else p) } := by
  obtain ⟨h1, h2, h3⟩ := h
  set f : PartRec → PartRec := fun p =>
    if c p then { p with claimed_by := a, claimed_name := b, claimed_at := t } else p with hfdef
  have hwid : ∀ p, (f p).week_id = p.week_id := by
    intro p
    by_cases hc : c p <;> simp [hfdef, hc]
  have hnum : ∀ p, (f p).number = p.number := by
    intro p
    by_cases hc : c p <;> simp [hfdef, hc]
  refine ⟨?_, ?_, ?_⟩
  · intro p hp1
    obtain ⟨q, hq, rfl⟩ := List.mem_map.mp hp1
    obtain ⟨w, hw1, he⟩ := h1 q hq
    exact ⟨w, hw1, by rw [hwid]; exact he⟩
  · intro w hw1
    rw [filter_map_week _ _ _ hwid, map_number_of_pres _ _ hnum]
    exact h2 w hw1
  · intro p hp1
    obtain ⟨q, hq, rfl⟩ := List.mem_map.mp hp1
    by_cases hc : c q
    · simp only [hfdef, if_pos hc]
      exact ⟨by constructor <;> intro hx <;> simp_all [hfields.1], fun hx => hfields.2 hx⟩
    · simp only [hfdef, if_neg hc]
      exact h3 q hq

theorem freshWeekParts_fields {wid : String} {p : PartRec} (h : p ∈ freshWeekParts wid) :
    p.week_id = wid ∧ p.claimed_by = none ∧ p.claimed_name = none ∧ p.claimed_at = none := by
  obtain ⟨k, _, rfl⟩ := List.mem_map.mp h
  exact ⟨rfl, rfl, rfl, rfl⟩

theorem freshWeekParts_numbers (wid : String) :
    (freshWeekParts wid).map (fun p => p.number) = List.range' 1 30 := by
  unfold freshWeekParts
  rw [List.map_map]
  exact List.map_id (List.range' 1 30)

theorem storeInv_ensureWeek (db : DB) (wk newId : String) (h : StoreInv db)
    (hfresh : ∀ w ∈ db.weeks, w.id ≠ newId) :
    StoreInv (ensureWeek db wk newId).2 := by
  obtain ⟨h1, h2, h3⟩ := h
  unfold ensureWeek
  split
  · exact ⟨h1, h2, h3⟩
  · refine ⟨?_, ?_, ?_⟩
    · intro p hp1
      rcases List.mem_append.mp hp1 with hold | hnew
      · obtain ⟨w, hw1, he⟩ := h1 p hold
        exact ⟨w, List.mem_append.mpr (Or.inl hw1), he⟩
      · exact ⟨⟨newId, wk⟩, List.mem_append.mpr (Or.inr (by simp)),
          (freshWeekParts_fields hnew).1⟩
    · intro w hw1
      rw [List.filter_append]
      rcases List.mem_append.mp hw1 with hold | hnew
      · have hne : w.id ≠ newId := hfresh w hold
        have hfd : (freshWeekParts newId).filter (fun p => p.week_id == w.id) = [] := by
          rw [List.filter_eq_nil_iff]
          intro p hp1
          have := (freshWeekParts_fields hp1).1
          simp [this, Ne.symm hne]
        rw [hfd, List.append_nil]
        exact h2 w hold
      · have hw2 : w = ⟨newId, wk⟩ := by simpa using hnew
        subst hw2
        have hod : db.parts.filter (fun p => p.week_id == (Week.mk newId wk).id) = [] := by
          rw [List.filter_eq_nil_iff]
          intro p hp1
          obtain ⟨w0, hw0, he⟩ := h1 p hp1
          have := hfresh w0 hw0
          simp [he, this]
        have hfd : (freshWeekParts newId).filter (fun p => p.week_id == (Week.mk newId wk).id) =
            freshWeekParts newId := by
          rw [List.filter_eq_self]
          intro p hp1
          simp [(freshWeekParts_fields hp1).1]
        rw [hod, hfd, List.nil_append]
        exact freshWeekParts_numbers newId
    · intro p hp1
      rcases List.mem_append.mp hp1 with hold | hnew
      · exact h3 p hold
      · obtain ⟨_, hb, hn, ha⟩ := freshWeekParts_fields hnew
        exact ⟨by simp [hb, ha], fun _ => hn⟩

theorem storeInv_getWeek (db : DB) (wk newId : String) (h : StoreInv db)
    (hfresh : ∀ w ∈ db.weeks, w.id ≠ newId) :
    StoreInv (getWeek db wk newId).2 := by
  unfold getWeek
  split
  · exact h
  · exact storeInv_ensureWeek db wk newId h hfresh

theorem storeInv_getWeekHandler (db : DB) (wk newId : String) (h : StoreInv db)
    (hfresh : ∀ w ∈ db.weeks, w.id ≠ newId) :
    StoreInv (getWeekHandler db wk newId).db := by
  unfold getWeekHandler
  split
  · exact h
  · exact storeInv_getWeek db wk newId h hfresh

theorem storeInv_claimPart (cfg : Config) (db : DB) (uid wk ns : String) (pr : Profile)
    (now : Nat) (h : StoreInv db) : StoreInv (claimPart cfg db uid wk ns pr now).db := by
  unfold claimPart
  split
  · exact h
  · split
    · exact h
    · split
      · exact h
      · rename_i heq
        obtain ⟨hp, hw⟩ := resolveUser_parts heq
        have h1 : StoreInv _ := storeInv_of_eq hp hw h
        split
        · exact h1
        · split
          · exact h1
          · split
            · exact h1
            · exact storeInv_map_update _ _ _ _ _ h1 ⟨by simp, by simp⟩

theorem storeInv_releasePart (db : DB) (uid wk ns : String) (h : StoreInv db) :
    StoreInv (releasePart db uid wk ns).db := by
  unfold releasePart
  split
  · exact h
  · split
    · exact h
    · split
      · exact h
      · split
        · exact h
        · split
          · exact h
          · split
            · exact h
            · exact storeInv_map_update db _ _ _ _ h ⟨by simp, by simp⟩

theorem storeInv_resetWeek (cfg : Config) (db : DB) (uid wk : String) (pr : Profile)
    (newId : String) (h : StoreInv db) (hfresh : ∀ w ∈ db.weeks, w.id ≠ newId) :
    StoreInv (resetWeek cfg db uid wk pr newId).db := by
  unfold resetWeek
  split
  · exact h
  · split
    · exact h
    · rename_i heq
      obtain ⟨hp, hw⟩ := resolveUser_parts heq
      have h1 : StoreInv _ := storeInv_of_eq hp hw h
      rename_i db1 user
      have hfresh1 : ∀ w ∈ db1.weeks, w.id ≠ newId := by
        rw [hw]; exact hfresh
      split
      · exact h1
      · have h2 : StoreInv (getWeek db1 wk newId).2 := storeInv_getWeek db1 wk newId h1 hfresh1
        rcases hgw : getWeek db1 wk newId with ⟨⟨wid, k⟩, db2⟩
        rw [hgw] at h2
        exact storeInv_map_update db2 _ _ _ _ h2 ⟨by simp, by simp⟩

theorem storeInv_loginDb (cfg : Config) (db : DB) (nm ph newId key : String)
    (h : StoreInv db) : StoreInv (loginDb cfg db nm ph newId key) := by
  unfold loginDb
  split
  · rename_i heq
    unfold loginUser at heq
    split at heq
    · exact absurd heq (by simp)
    · split at heq
      · cases heq
        exact storeInv_of_eq rfl rfl h
      · cases heq
        exact storeInv_of_eq rfl rfl h
  · exact h

theorem storeInv_profileDb (cfg : Config) (db : DB) (uid : String) (pr : Profile)
    (h : StoreInv db) : StoreInv (profileDb cfg db uid pr) := by
  unfold profileDb
  split
  · rename_i heq
    obtain ⟨hp, hw⟩ := updateUserProfile_parts heq
    exact storeInv_of_eq hp hw h
  · exact h

/-- Every reachable database satisfies the combined store invariant. -/
theorem reach_storeInv {cfg : Config} {db : DB} (h : Reach cfg db) : StoreInv db := by
  induction h with
  | init users =>
    exact ⟨fun p hp => absurd hp (by simp), fun w hw => absurd hw (by simp),
      fun p hp => absurd hp (by simp)⟩
  | login db nm ph newId key h ih => exact storeInv_loginDb _ _ _ _ _ _ ih
  | profile db uid pr h ih => exact storeInv_profileDb _ _ _ _ ih
  | fetchWeek db wk newId h hfresh ih => exact storeInv_getWeekHandler _ _ _ ih hfresh
  | claim db uid wk ns pr now h ih => exact storeInv_claimPart _ _ _ _ _ _ _ ih
  | release db uid wk ns h ih => exact storeInv_releasePart _ _ _ _ ih
  | reset db uid wk pr newId h hfresh ih => exact storeInv_resetWeek _ _ _ _ _ _ ih hfresh

/-! ## Reachability of the example states -/

theorem reach_exDbClaimed : Reach exCfg exDbClaimed := by
  have h1 : Reach exCfg dbEmpty := Reach.init []
  have h2 : Reach exCfg exDbLogin := Reach.login dbEmpty " " "0501234567" "u1" "fk1" h1
  have h3 : Reach exCfg exDbLoginWeek :=
    Reach.fetchWeek exDbLogin "week-1" "w1" h2 (by decide)
  exact Reach.claim exDbLoginWeek "u1" "w1" "5" ⟨none, none⟩ 1000 h3

/-! ## Claim C1 -/

/-- C1 (amended): in every reachable database, `claimed_by` and `claimed_at`
are null together, and a part with null `claimed_by` also has a null
`claimed_name`; the converse direction of the original three-way equivalence
fails, because a claimed part may carry a null `claimed_name` (see the
counterexample). -/
theorem claimed_fields_null_invariant {cfg : Config} {db : DB} (h : Reach cfg db) :
    ∀ p ∈ db.parts,
      (p.claimed_by = none ↔ p.claimed_at = none) ∧
      (p.claimed_by = none → p.claimed_name = none) := by
  intro p hp
  exact (reach_storeInv h).2.2 p hp

theorem claimed_fields_null_invariant_witness :
    (cexPart.claimed_by = none ↔ cexPart.claimed_at = none) ∧
    (cexPart.claimed_by = none → cexPart.claimed_name = none) :=
  claimed_fields_null_invariant reach_exDbClaimed cexPart (by decide)

/-- C1 counterexample: a user who logged in with a whitespace-only name (the
source stores `null`) claims part 5 of a fresh week without a name override;
the resulting reachable state contains a part with `claimed_by` and
`claimed_at` non-null but `claimed_name` null, refuting
`claimedBy == null ⟺ claimedName == null ⟺ claimedAt == null`. -/
theorem claimed_fields_null_counterexample :
    Reach exCfg exDbClaimed ∧ cexPart ∈ exDbClaimed.parts ∧
    cexPart.claimed_by ≠ none ∧ cexPart.claimed_name = none ∧ cexPart.claimed_at ≠ none :=
  ⟨reach_exDbClaimed, by decide, by decide, rfl, by decide⟩

/-! ## Claim C6 -/

/-- C6: every reachable week owns exactly the parts numbered 1 through 30;
weeks are created together with their parts in `ensureWeek`, and no operation
afterwards adds or removes a part row. -/
theorem week_owns_thirty_parts {cfg : Config} {db : DB} (h : Reach cfg db) :
    ∀ w ∈ db.weeks,
      ((db.parts.filter (fun p => p.week_id == w.id)).map (fun p => p.number)) =
        List.range' 1 30 :=
  (reach_storeInv h).2.1

theorem week_owns_thirty_parts_witness :
    ((exDbClaimed.parts.filter
        (fun p => p.week_id == (Week.mk "w1" "week-1").id)).map (fun p => p.number)) =
      List.range' 1 30 :=
  week_owns_thirty_parts reach_exDbClaimed ⟨"w1", "week-1"⟩ (by decide)

/-! ## Claim C8 -/

/-- C8: a failing claim, release or reset (validation error, not-found,
conflict or authorization failure) emits no broadcast event; each handler
broadcasts only on its success path, after the commit. -/
theorem failed_mutation_no_broadcast :
    (∀ (cfg : Config) (db : DB) (uid wk ns : String) (pr : Profile) (now : Nat),
        (claimPart cfg db uid wk ns pr now).result.isOk = false →
        (claimPart cfg db uid wk ns pr now).events = []) ∧
    (∀ (db : DB) (uid wk ns : String),
        (releasePart db uid wk ns).result.isOk = false →
        (releasePart db uid wk ns).events = []) ∧
    (∀ (cfg : Config) (db : DB) (uid wk : String) (pr : Profile) (newId : String),
        (resetWeek cfg db uid wk pr newId).result.isOk = false →
        (resetWeek cfg db uid wk pr newId).events = []) :=
  ⟨claimPart_error_no_events, releasePart_error_no_events, resetWeek_error_no_events⟩

theorem failed_mutation_no_broadcast_witness :
    (claimPart exCfg exDbWeek "u1" "w1" "abc" ⟨none, none⟩ 0).events = [] ∧
    (releasePart exDbWeek "u1" "w1" "5").events = [] ∧
    (resetWeek exCfg exDbWeek "u1" "week-1" ⟨none, none⟩ "w2").events = [] :=
  ⟨failed_mutation_no_broadcast.1 exCfg exDbWeek "u1" "w1" "abc" ⟨none, none⟩ 0 (by decide),
   failed_mutation_no_broadcast.2.1 exDbWeek "u1" "w1" "5" (by decide),
   failed_mutation_no_broadcast.2.2 exCfg exDbWeek "u1" "week-1" ⟨none, none⟩ "w2" (by decide)⟩

/-- The integer computation `finEqNat` agrees with exact arithmetic: thus the
embedded row predicate compares the parsed value `m · 10^e` with the integer
part number, as the store does. -/
theorem finEqNat_correct (m e : ℤ) (k : ℕ) :
    finEqNat m e k = true ↔ (m : ℚ) * (10 : ℚ) ^ e = (k : ℚ) := by
  unfold finEqNat
  by_cases he : 0 ≤ e
  · rw [if_pos he, beq_iff_eq]
    have he2 : e = (e.toNat : ℤ) := (Int.toNat_of_nonneg he).symm
    rw [he2, zpow_natCast]
    constructor
    · intro h
      exact_mod_cast h
    · intro h
      exact_mod_cast h
  · rw [if_neg he, beq_iff_eq]
    set nn := (-e).toNat with hn
    have he2 : e = -(nn : ℤ) := by omega
    rw [he2, zpow_neg, zpow_natCast, ← div_eq_mul_inv,
      div_eq_iff (pow_ne_zero _ (by norm_num : (10 : ℚ) ≠ 0))]
    constructor
    · intro h
      exact_mod_cast congrArg (fun z : ℤ => (z : ℚ)) h
    · intro h
      exact_mod_cast h

theorem pgRangeFilter_some {j i : ℤ} (h : pgRangeFilter j = some i) : i = j := by
  unfold pgRangeFilter at h
  split at h
  · exact (Option.some.inj h).symm
  · exact absurd h (by simp)

theorem pgIntParam_fin {m e i : ℤ} (h : pgIntParam (.fin m e) = some i) :
    (0 ≤ e ∧ i = m * 10 ^ e.toNat) ∨
    (¬0 ≤ e ∧ m % (10 : ℤ) ^ (-e).toNat = 0 ∧ i = m / (10 : ℤ) ^ (-e).toNat) := by
  simp only [pgIntParam] at h
  by_cases he : 0 ≤ e
  · rw [if_pos he] at h
    exact Or.inl ⟨he, pgRangeFilter_some h⟩
  · rw [if_neg he] at h
    by_cases hd : (m % (10 : ℤ) ^ (-e).toNat == 0) = true
    · rw [if_pos hd] at h
      exact Or.inr ⟨he, by simpa using hd, pgRangeFilter_some h⟩
    · rw [if_neg hd] at h
      exact absurd h (by simp)

theorem beq_comm_int (a b : ℤ) : (a == b) = (b == a) := by
  by_cases h : a = b
  · simp [h]
  · simp [h, Ne.symm h]

/-- When the parameter bind succeeds, the store's row predicate (comparison
with the bound integer) coincides with the value-level predicate
`partMatches`: the bind loses no precision on integral values. -/
theorem partMatchesInt_eq_of_bind {n : JsNum} {i : ℤ} (h : pgIntParam n = some i)
    (wk : String) : partMatchesInt wk i = partMatches wk n := by
  funext p
  cases n with
  | posInf => exact absurd h (by simp [pgIntParam])
  | negInf => exact absurd h (by simp [pgIntParam])
  | fin m e =>
    unfold partMatchesInt partMatches
    simp only [finEqNat]
    rcases pgIntParam_fin h with ⟨he, rfl⟩ | ⟨he, hd, rfl⟩
    · rw [if_pos he]
      congr 1
      exact beq_comm_int _ _
    · rw [if_neg he]
      congr 1
      have hdvd : ((10 : ℤ) ^ (-e).toNat) ∣ m := Int.dvd_of_emod_eq_zero hd
      obtain ⟨c, rfl⟩ := hdvd
      have hdne : ((10 : ℤ) ^ (-e).toNat) ≠ 0 := pow_ne_zero _ (by norm_num)
      rw [Int.mul_ediv_cancel_left c hdne]
      by_cases hx : (p.number : ℤ) = c
      · simp [hx, mul_comm]
      · have hy : ((10 : ℤ) ^ (-e).toNat) * c ≠ (p.number : ℤ) * ((10 : ℤ) ^ (-e).toNat) := by
          intro hz
          apply hx
          rw [mul_comm ((p.number : ℤ)) _] at hz
          exact (mul_left_cancel₀ hdne hz).symm
        simp [hx, hy]

/-! ## Claim C5 -/

/-- C5 counterexample: when the select finds no week and a concurrent
creation wins the insert, the operation results in the uniqueness-constraint
error - there is no fallback lookup, so the caller does receive an error on
this path, contrary to the claim. -/
theorem ensureWeek_race_counterexample :
    ensureWeekRaced none true "w-new" = .error .uniqueViolation := rfl

/-- C5 (amended): `ensureWeek` is a get-or-create - an existing key is
returned untouched and an unseen key is inserted together with its parts -
and a lost creation race surfaces the store's uniqueness error: the error is
exactly the lost-race case, and it propagates instead of falling back to a
fresh lookup. -/
theorem ensureWeek_get_or_create :
    (∀ (found : Option String) (conflict : Bool) (newId : String),
        (ensureWeekRaced found conflict newId).isOk = false ↔
          (found = none ∧ conflict = true)) ∧
    (∀ (db : DB) (wk newId : String) (w : Week),
        db.weeks.find? (fun x => x.week_key == wk) = some w →
        getWeek db wk newId = ((w.id, w.week_key), db)) ∧
    (∀ (db : DB) (wk newId : String),
        db.weeks.find? (fun x => x.week_key == wk) = none →
        getWeek db wk newId =
          ((newId, wk),
           { db with
              weeks := db.weeks ++ [⟨newId, wk⟩],
              parts := db.parts ++ freshWeekParts newId })) := by
  refine ⟨?_, ?_, ?_⟩
  · intro found conflict newId
    cases found with
    | some id => simp [ensureWeekRaced, Except.isOk, Except.toBool]
    | none =>
      cases conflict <;> simp [ensureWeekRaced, Except.isOk, Except.toBool]
  · intro db wk newId w h
    unfold getWeek
    rw [h]
  · intro db wk newId h
    unfold getWeek ensureWeek
    rw [h]

theorem ensureWeek_get_or_create_witness :
    getWeek exDbWeek "week-1" "w9" = (("w1", "week-1"), exDbWeek) :=
  ensureWeek_get_or_create.2.1 exDbWeek "week-1" "w9" ⟨"w1", "week-1"⟩ (by decide)

/-! ## Claim C7 -/

/-- C7: `computeAdminFlag` is exactly "current flag, or name matches the
configured admin name, or phone occurs in the configured admin phone list";
it is monotone in the current flag, and a profile update never turns a
stored admin flag from true to false. -/
theorem computeAdminFlag_spec :
    (∀ (cfg : Config) (name phone : Option String) (current : Bool),
        computeAdminFlag cfg name phone current = true ↔
          (current = true ∨
           (cfg.adminName ≠ "" ∧ name = some cfg.adminName) ∨
           (∃ p, phone = some p ∧ p ≠ "" ∧ p ∈ cfg.adminPhones))) ∧
    (∀ (cfg : Config) (name phone : Option String),
        computeAdminFlag cfg name phone true = true) ∧
    (∀ (cfg : Config) (db : DB) (uid : String) (pr : Profile) (db1 : DB) (u u1 : User),
        getUserById db uid = .ok u → u.is_admin = true →
        updateUserProfile cfg db uid pr = .ok (db1, u1) → u1.is_admin = true) := by
  have hflag : ∀ (cfg : Config) (name phone : Option String) (current : Bool),
      computeAdminFlag cfg name phone current = true ↔
        (current = true ∨
         (cfg.adminName ≠ "" ∧ name = some cfg.adminName) ∨
         (∃ p, phone = some p ∧ p ≠ "" ∧ p ∈ cfg.adminPhones)) := by
    intro cfg name phone current
    unfold computeAdminFlag
    simp only [Bool.or_eq_true, Bool.and_eq_true, Bool.not_eq_true', beq_iff_eq]
    constructor
    · rintro ((hc | ⟨⟨ha, ht⟩, he⟩) | ⟨ht, hp⟩)
      · exact Or.inl hc
      · refine Or.inr (Or.inl ⟨?_, he⟩)
        intro hx
        rw [hx] at ha
        exact absurd ha (by decide)
      · cases phone with
        | none => exact absurd ht (by decide)
        | some p =>
          refine Or.inr (Or.inr ⟨p, rfl, ?_, by simpa using hp⟩)
          intro hx
          rw [hx] at ht
          exact absurd ht (by decide)
    · rintro (hc | ⟨ha, he⟩ | ⟨p, hpe, hp1, hp2⟩)
      · exact Or.inl (Or.inl hc)
      · have hane : cfg.adminName.isEmpty = false := by
          rw [Bool.eq_false_iff]
          intro hx
          exact ha ((String.isEmpty_iff _).mp hx)
        subst he
        refine Or.inl (Or.inr ⟨⟨hane, ?_⟩, rfl⟩)
        simp [truthyStr, hane]
      · subst hpe
        have hpne : p.isEmpty = false := by
          rw [Bool.eq_false_iff]
          intro hx
          exact hp1 ((String.isEmpty_iff _).mp hx)
        refine Or.inr ⟨by simp [truthyStr, hpne], by simpa using hp2⟩
  refine ⟨hflag, ?_, ?_⟩
  · intro cfg name phone
    exact (hflag cfg name phone true).mpr (Or.inl rfl)
  · intro cfg db uid pr db1 u u1 hget hadm hup
    unfold updateUserProfile at hup
    rw [hget] at hup
    simp only at hup
    cases hup
    exact (hflag _ _ _ _).mpr (Or.inl hadm)

theorem computeAdminFlag_spec_witness :
    exAdmin.is_admin = true :=
  computeAdminFlag_spec.2.2 exCfg ⟨[exAdmin], [], []⟩ "a1" ⟨some "Root", none⟩
    ⟨[exAdmin], [], []⟩ exAdmin exAdmin (by decide) rfl (by decide)

/-! ## Claim C3 -/

/-- C3: with a well-formed request (numeric part segment, nonempty week id,
a resolvable caller with a nonempty id), `releasePart` fails `PART_NOT_FOUND`
on a missing part, fails `NOT_OWNER` leaving the database untouched whenever
the part is free or claimed by anyone other than the caller (the caller's
admin flag plays no role), and for the exact owner clears `claimed_by`,
`claimed_name` and `claimed_at` together. -/
theorem releasePart_spec (db : DB) (uid wk ns : String) (n : JsNum) (i : ℤ) (user : User)
    (hn : jsNumber ns = some n) (hwk : wk.isEmpty = false) (hid : uid.isEmpty = false)
    (hbind : pgIntParam n = some i)
    (huser : getUserById db uid = .ok user) :
    (db.parts.find? (partMatches wk n) = none →
        (releasePart db uid wk ns).result = .error .PART_NOT_FOUND ∧
        (releasePart db uid wk ns).db = db) ∧
    (∀ part, db.parts.find? (partMatches wk n) = some part →
        ((part.claimed_by = none ∨ part.claimed_by ≠ some uid) →
            (releasePart db uid wk ns).result = .error .NOT_OWNER ∧
            (releasePart db uid wk ns).db = db) ∧
        (part.claimed_by = some uid →
            (releasePart db uid wk ns).result = .ok ⟨jsNumVal n, none, none, none⟩ ∧
            (releasePart db uid wk ns).db.parts = db.parts.map (fun p =>
              if partMatches wk n p then
                { p with claimed_by := none, claimed_name := none, claimed_at := none }
              else p))) := by
  have hu : user.id = uid := getUserById_id huser
  have hpm := partMatchesInt_eq_of_bind hbind wk
  refine ⟨?_, ?_⟩
  · intro hfind
    unfold releasePart
    simp [hn, hwk, huser, hbind, hpm, hfind]
  · intro part hfind
    constructor
    · intro hown
      have hcond : (!truthyStr part.claimed_by || part.claimed_by != some user.id) = true := by
        rcases hown with h0 | h0
        · rw [h0]
          simp [truthyStr]
        · rw [hu]
          cases hcb : part.claimed_by with
          | none => simp [truthyStr]
          | some x =>
            have hx : ¬(some x = some uid) := by
              rw [← hcb]
              exact h0
            simp [bne_iff_ne, hx]
      unfold releasePart
      simp [hn, hwk, huser, hbind, hpm, hfind, hcond]
    · intro hown
      have hcond : (!truthyStr part.claimed_by || part.claimed_by != some user.id) = false := by
        rw [hown, hu]
        simp [truthyStr, hid]
      unfold releasePart
      simp [hn, hwk, huser, hbind, hpm, hfind, hcond]

theorem releasePart_spec_witness :
    ((exDbBobClaim.parts.find? (partMatches "w1" (.fin 5 0)) = none →
        (releasePart exDbBobClaim "a1" "w1" "5").result = .error .PART_NOT_FOUND ∧
        (releasePart exDbBobClaim "a1" "w1" "5").db = exDbBobClaim) ∧
     (∀ part, exDbBobClaim.parts.find? (partMatches "w1" (.fin 5 0)) = some part →
        ((part.claimed_by = none ∨ part.claimed_by ≠ some "a1") →
            (releasePart exDbBobClaim "a1" "w1" "5").result = .error .NOT_OWNER ∧
            (releasePart exDbBobClaim "a1" "w1" "5").db = exDbBobClaim) ∧
        (part.claimed_by = some "a1" →
            (releasePart exDbBobClaim "a1" "w1" "5").result =
              .ok ⟨jsNumVal (.fin 5 0), none, none, none⟩ ∧
            (releasePart exDbBobClaim "a1" "w1" "5").db.parts =
              exDbBobClaim.parts.map (fun p =>
                if partMatches "w1" (.fin 5 0) p then
                  { p with claimed_by := none, claimed_name := none, claimed_at := none }
                else p)))) :=
  releasePart_spec exDbBobClaim "a1" "w1" "5" (.fin 5 0) 5 exAdmin
    (by decide) (by decide) (by decide) (by decide) (by decide)

/-! ## Claim C2 -/

theorem resolveUser_noprofile {cfg : Config} {db : DB} {uid : String} {db1 : DB} {u : User}
    (h : resolveUser cfg db uid ⟨none, none⟩ = .ok (db1, u)) : db1 = db := by
  unfold resolveUser at h
  split at h
  · exact absurd h (by simp)
  · rw [if_neg (by simp [truthyStr])] at h
    cases h
    rfl

/-- C2 counterexample: Bob (stored name `"Bob"`) claims a free part and
supplies the name override `"  "`; the override is present, yet the code
trims it, finds it empty, and falls back to the stored name: `claimed_name`
becomes `"Bob"`, not the supplied override. -/
theorem claimPart_override_counterexample :
    ((claimPart exCfg exDbWeek "u1" "w1" "5" ⟨some "  ", none⟩ 77).result.toOption.map
        (fun r => r.claimed_name)) = some (some "Bob") ∧
    some "Bob" ≠ some "  " :=
  ⟨by decide, by decide⟩

/-- C2 (amended): with a well-formed request and a resolved caller,
`claimPart` on a claimed part fails `ALREADY_CLAIMED` leaving the parts
table unchanged (and, when no profile hint was sent, the whole store
unchanged); on a free part it succeeds and writes `claimed_by = caller id`,
`claimed_at = now`, and `claimed_name` equal to the trimmed override when
that is nonempty, otherwise the caller's stored name, otherwise null. -/
theorem claimPart_spec (cfg : Config) (db : DB) (uid wk ns : String) (pr : Profile)
    (now : Nat) (n : JsNum) (i : ℤ) (db1 : DB) (user : User) (part : PartRec)
    (hn : jsNumber ns = some n) (hwk : wk.isEmpty = false)
    (hbind : pgIntParam n = some i)
    (hres : resolveUser cfg db uid pr = .ok (db1, user))
    (hfind : db1.parts.find? (partMatches wk n) = some part) :
    (truthyStr part.claimed_by = true →
        (claimPart cfg db uid wk ns pr now).result = .error .ALREADY_CLAIMED ∧
        (claimPart cfg db uid wk ns pr now).db.parts = db.parts ∧
        (pr = ⟨none, none⟩ → (claimPart cfg db uid wk ns pr now).db = db)) ∧
    (truthyStr part.claimed_by = false →
        (claimPart cfg db uid wk ns pr now).result =
          .ok ⟨jsNumVal n, some user.id,
               jsOrStr (pr.name.map jsTrim) (jsOrNull user.name), some user.is_admin⟩ ∧
        (claimPart cfg db uid wk ns pr now).db.parts = db1.parts.map (fun p =>
          if partMatches wk n p then
            { p with claimed_by := some user.id,
                     claimed_name := jsOrStr (pr.name.map jsTrim) (jsOrNull user.name),
                     claimed_at := some now }
          else p)) := by
  obtain ⟨hdp, hdw⟩ := resolveUser_parts hres
  have hpm := partMatchesInt_eq_of_bind hbind wk
  constructor
  · intro hcb
    have h1 : (claimPart cfg db uid wk ns pr now).result = .error .ALREADY_CLAIMED ∧
        (claimPart cfg db uid wk ns pr now).db = db1 := by
      unfold claimPart
      simp [hn, hwk, hres, hbind, hpm, hfind, hcb]
    refine ⟨h1.1, by rw [h1.2, hdp], ?_⟩
    intro hpr
    subst hpr
    rw [h1.2]
    exact resolveUser_noprofile hres
  · intro hcb
    unfold claimPart
    simp [hn, hwk, hres, hbind, hpm, hfind, hcb]

theorem claimPart_spec_witness :
    (truthyStr (PartRec.claimed_by ⟨"w1", 5, none, none, none⟩) = true →
        (claimPart exCfg exDbWeek "u1" "w1" "5" ⟨some "  ", none⟩ 77).result =
          .error .ALREADY_CLAIMED ∧
        (claimPart exCfg exDbWeek "u1" "w1" "5" ⟨some "  ", none⟩ 77).db.parts =
          exDbWeek.parts ∧
        ((⟨some "  ", none⟩ : Profile) = ⟨none, none⟩ →
          (claimPart exCfg exDbWeek "u1" "w1" "5" ⟨some "  ", none⟩ 77).db = exDbWeek)) ∧
    (truthyStr (PartRec.claimed_by ⟨"w1", 5, none, none, none⟩) = false →
        (claimPart exCfg exDbWeek "u1" "w1" "5" ⟨some "  ", none⟩ 77).result =
          .ok ⟨jsNumVal (.fin 5 0), some exUserBob.id,
               jsOrStr ((some "  ").map jsTrim) (jsOrNull exUserBob.name),
               some exUserBob.is_admin⟩ ∧
        (claimPart exCfg exDbWeek "u1" "w1" "5" ⟨some "  ", none⟩ 77).db.parts =
          exDbWeek.parts.map (fun p =>
            if partMatches "w1" (.fin 5 0) p then
              { p with claimed_by := some exUserBob.id,
                       claimed_name := jsOrStr ((some "  ").map jsTrim)
                         (jsOrNull exUserBob.name),
                       claimed_at := some 77 }
            else p)) :=
  claimPart_spec exCfg exDbWeek "u1" "w1" "5" ⟨some "  ", none⟩ 77 (.fin 5 0) 5
    exDbWeek exUserBob ⟨"w1", 5, none, none, none⟩
    (by decide) (by decide) (by decide) (by decide) (by decide)

/-! ## Sorting lemmas for snapshots -/

theorem mem_insertByNumber {q p : PartRec} {l : List PartRec}
    (h : q ∈ insertByNumber p l) : q = p ∨ q ∈ l := by
  induction l with
  | nil => simpa [insertByNumber] using h
  | cons a t ih =>
    unfold insertByNumber at h
    by_cases hc : p.number ≤ a.number
    · rw [if_pos hc] at h
      simpa using h
    · rw [if_neg hc] at h
      rcases List.mem_cons.mp h with h2 | h2
      · exact Or.inr (by simp [h2])
      · rcases ih h2 with h3 | h3
        · exact Or.inl h3
        · exact Or.inr (by simp [h3])

theorem mem_sortByNumber {q : PartRec} {l : List PartRec}
    (h : q ∈ sortByNumber l) : q ∈ l := by
  induction l generalizing q with
  | nil => simp [sortByNumber] at h
  | cons a t ih =>
    unfold sortByNumber at h
    rcases mem_insertByNumber h with h2 | h2
    · simp [h2]
    · exact List.mem_cons_of_mem a (ih h2)

theorem insertByNumber_head {p : PartRec} {l : List PartRec}
    (h : ∀ q ∈ l, p.number ≤ q.number) : insertByNumber p l = p :: l := by
  cases l with
  | nil => rfl
  | cons a t =>
    unfold insertByNumber
    rw [if_pos (h a (by simp))]

theorem sortByNumber_of_pairwise {l : List PartRec}
    (h : List.Pairwise (fun a b => a.number ≤ b.number) l) : sortByNumber l = l := by
  induction l with
  | nil => rfl
  | cons a t ih =>
    unfold sortByNumber
    rw [ih (List.Pairwise.sublist (List.sublist_cons_self a t) h)]
    exact insertByNumber_head (fun q hq => List.rel_of_pairwise_cons h hq)

theorem freshWeekParts_pairwise (wid : String) :
    List.Pairwise (fun a b => a.number ≤ b.number) (freshWeekParts wid) := by
  unfold freshWeekParts
  rw [List.pairwise_map]
  have : List.Pairwise (fun a b : Nat => a ≤ b) (List.range' 1 30) := by decide
  exact this.imp (fun {a b} h => h)

/-! ## Claim C4 -/

/-- C4: with a well-formed request and a resolved caller, `resetWeek` by a
caller whose resolved admin flag is false fails `NOT_ADMIN` and leaves every
part row unchanged; by an admin it clears the claimed fields of every part of
the week and the returned snapshot (also the one broadcast) contains zero
claimed parts. -/
theorem resetWeek_spec (cfg : Config) (db : DB) (uid wk : String) (pr : Profile)
    (newId : String) (db1 : DB) (user : User)
    (hwk : wk.isEmpty = false)
    (hres : resolveUser cfg db uid pr = .ok (db1, user)) :
    (user.is_admin = false →
        (resetWeek cfg db uid wk pr newId).result = .error .NOT_ADMIN ∧
        (resetWeek cfg db uid wk pr newId).db.parts = db.parts) ∧
    (user.is_admin = true →
        ∃ wid,
          (resetWeek cfg db uid wk pr newId).result =
            .ok (wid, fetchParts (resetWeek cfg db uid wk pr newId).db wid) ∧
          (∀ p ∈ (resetWeek cfg db uid wk pr newId).db.parts, p.week_id = wid →
              p.claimed_by = none ∧ p.claimed_name = none ∧ p.claimed_at = none) ∧
          (∀ r ∈ fetchParts (resetWeek cfg db uid wk pr newId).db wid,
              r.claimed_by = none ∧ r.claimed_name = none)) := by
  obtain ⟨hdp, hdw⟩ := resolveUser_parts hres
  constructor
  · intro hadm
    have h1 : resetWeek cfg db uid wk pr newId = ⟨.error .NOT_ADMIN, db1, []⟩ := by
      unfold resetWeek
      simp [hwk, hres, hadm]
    rw [h1, hdp]
    exact ⟨rfl, rfl⟩
  · intro hadm
    rcases hgw : getWeek db1 wk newId with ⟨⟨wid, k⟩, db2⟩
    have h1 : resetWeek cfg db uid wk pr newId =
        ⟨.ok (wid, fetchParts
            { db2 with parts := db2.parts.map (fun p =>
                if p.week_id == wid then
                  { p with claimed_by := none, claimed_name := none, claimed_at := none }
                else p) } wid),
          { db2 with parts := db2.parts.map (fun p =>
              if p.week_id == wid then
                { p with claimed_by := none, claimed_name := none, claimed_at := none }
              else p) },
          [.weekReset wid (fetchParts
            { db2 with parts := db2.parts.map (fun p =>
                if p.week_id == wid then
                  { p with claimed_by := none, claimed_name := none, claimed_at := none }
                else p) } wid)]⟩ := by
      unfold resetWeek
      simp [hwk, hres, hadm, hgw]
    refine ⟨wid, by rw [h1], ?_, ?_⟩
    · intro p hp hpw
      rw [h1] at hp
      simp only at hp
      obtain ⟨q, hq, rfl⟩ := List.mem_map.mp hp
      by_cases hc : (q.week_id == wid) = true
      · rw [if_pos hc]
        exact ⟨rfl, rfl, rfl⟩
      · rw [if_neg hc] at hpw ⊢
        exact absurd (by simp [hpw]) hc
    · intro r hr
      rw [h1] at hr
      simp only at hr
      unfold fetchParts at hr
      obtain ⟨q, hq, rfl⟩ := List.mem_map.mp hr
      have hq2 := mem_sortByNumber hq
      have hq3 := List.mem_filter.mp hq2
      obtain ⟨q0, hq0, rfl⟩ := List.mem_map.mp hq3.1
      by_cases hc : (q0.week_id == wid) = true
      · rw [if_pos hc]
        rw [if_pos hc] at hq3
        exact ⟨rfl, rfl⟩
      · rw [if_neg hc] at hq3
        exact absurd hq3.2 (by simpa using hc)

theorem resetWeek_spec_witness :
    ((exAdmin.is_admin = false →
        (resetWeek exCfg exDbBobClaim "a1" "week-1" ⟨none, none⟩ "w9").result =
          .error .NOT_ADMIN ∧
        (resetWeek exCfg exDbBobClaim "a1" "week-1" ⟨none, none⟩ "w9").db.parts =
          exDbBobClaim.parts) ∧
     (exAdmin.is_admin = true →
        ∃ wid,
          (resetWeek exCfg exDbBobClaim "a1" "week-1" ⟨none, none⟩ "w9").result =
            .ok (wid, fetchParts
              (resetWeek exCfg exDbBobClaim "a1" "week-1" ⟨none, none⟩ "w9").db wid) ∧
          (∀ p ∈ (resetWeek exCfg exDbBobClaim "a1" "week-1" ⟨none, none⟩ "w9").db.parts,
              p.week_id = wid →
              p.claimed_by = none ∧ p.claimed_name = none ∧ p.claimed_at = none) ∧
          (∀ r ∈ fetchParts
              (resetWeek exCfg exDbBobClaim "a1" "week-1" ⟨none, none⟩ "w9").db wid,
              r.claimed_by = none ∧ r.claimed_name = none))) :=
  resetWeek_spec exCfg exDbBobClaim "a1" "week-1" ⟨none, none⟩ "w9" exDbBobClaim exAdmin
    (by decide) (by decide)

/-! ## Claim C9 -/

theorem fetchParts_of_filter_fresh (dbx : DB) (newId : String)
    (hfilter : dbx.parts.filter (fun p => p.week_id == newId) = freshWeekParts newId) :
    fetchParts dbx newId = (freshWeekParts newId).map (partToRow dbx) := by
  unfold fetchParts
  rw [hfilter, sortByNumber_of_pairwise (freshWeekParts_pairwise newId)]

theorem filter_cleared_parts (base : List PartRec) (newId : String)
    (hbase : ∀ p ∈ base, p.week_id ≠ newId) :
    ((base ++ freshWeekParts newId).map (fun p =>
        if p.week_id == newId then
          { p with claimed_by := none, claimed_name := none, claimed_at := none }
        else p)).filter (fun p => p.week_id == newId) = freshWeekParts newId := by
  have hwid : ∀ p : PartRec,
      ((fun p => if p.week_id == newId then
          { p with claimed_by := none, claimed_name := none, claimed_at := none }
        else p) p).week_id = p.week_id := by
    intro p
    by_cases h : (p.week_id == newId) = true <;> simp [h]
  rw [List.map_append, List.filter_append]
  have h1 : (base.map (fun p =>
      if p.week_id == newId then
        { p with claimed_by := none, claimed_name := none, claimed_at := none }
      else p)).filter (fun p => p.week_id == newId) = [] := by
    rw [filter_map_week base _ newId hwid,
      List.filter_eq_nil_iff.mpr (fun p hp => by simpa using hbase p hp)]
    rfl
  have h2 : (freshWeekParts newId).map (fun p =>
      if p.week_id == newId then
        { p with claimed_by := none, claimed_name := none, claimed_at := none }
      else p) = freshWeekParts newId := by
    have hcongr : ∀ p ∈ freshWeekParts newId,
        (if p.week_id == newId then
          { p with claimed_by := none, claimed_name := none, claimed_at := none }
        else p) = id p := by
      intro p hp
      obtain ⟨he, hb, hn, ha⟩ := freshWeekParts_fields hp
      by_cases h : (p.week_id == newId) = true
      · rw [if_pos h]
        cases p
        simp only [id_eq]
        simp_all
      · rw [if_neg h]
        rfl
    rw [List.map_congr_left hcongr, List.map_id]
  rw [h1, h2, List.nil_append,
    List.filter_eq_self.mpr (fun p hp => by simp [(freshWeekParts_fields hp).1])]

/-- C9: an admin reset of a week key with no stored week does not fail with
a not-found error: the week is created on the spot with its 30 parts, the
reset succeeds, and the returned snapshot is the all-free list of parts 1
through 30 - reset doubles as week creation. -/
theorem resetWeek_creates_week (cfg : Config) (db : DB) (uid wk : String) (pr : Profile)
    (newId : String) (db1 : DB) (user : User)
    (hwk : wk.isEmpty = false)
    (hres : resolveUser cfg db uid pr = .ok (db1, user))
    (hadm : user.is_admin = true)
    (hnone : db.weeks.find? (fun w => w.week_key == wk) = none)
    (hfp : ∀ p ∈ db.parts, p.week_id ≠ newId) :
    (resetWeek cfg db uid wk pr newId).result =
      .ok (newId, fetchParts (resetWeek cfg db uid wk pr newId).db newId) ∧
    (fetchParts (resetWeek cfg db uid wk pr newId).db newId).map (fun r => r.number) =
      (List.range' 1 30).map (fun k => (k : ℚ)) ∧
    (fetchParts (resetWeek cfg db uid wk pr newId).db newId).length = 30 ∧
    ∀ r ∈ fetchParts (resetWeek cfg db uid wk pr newId).db newId,
      r.claimed_by = none ∧ r.claimed_name = none ∧ r.claimed_is_admin = none := by
  obtain ⟨hdp, hdw⟩ := resolveUser_parts hres
  have hfind1 : db1.weeks.find? (fun w => w.week_key == wk) = none := by
    rw [hdw]
    exact hnone
  have hgw : getWeek db1 wk newId =
      ((newId, wk),
       { db1 with
          weeks := db1.weeks ++ [⟨newId, wk⟩],
          parts := db1.parts ++ freshWeekParts newId }) := by
    simp only [getWeek, ensureWeek, hfind1]
  have h1 : resetWeek cfg db uid wk pr newId =
      ⟨.ok (newId, fetchParts
          { users := db1.users, weeks := db1.weeks ++ [⟨newId, wk⟩],
            parts := (db1.parts ++ freshWeekParts newId).map (fun p =>
              if p.week_id == newId then
                { p with claimed_by := none, claimed_name := none, claimed_at := none }
              else p) } newId),
        { users := db1.users, weeks := db1.weeks ++ [⟨newId, wk⟩],
          parts := (db1.parts ++ freshWeekParts newId).map (fun p =>
            if p.week_id == newId then
              { p with claimed_by := none, claimed_name := none, claimed_at := none }
            else p) },
        [.weekReset newId (fetchParts
          { users := db1.users, weeks := db1.weeks ++ [⟨newId, wk⟩],
            parts := (db1.parts ++ freshWeekParts newId).map (fun p =>
              if p.week_id == newId then
                { p with claimed_by := none, claimed_name := none, claimed_at := none }
              else p) } newId)]⟩ := by
    unfold resetWeek
    simp [hwk, hres, hadm, hgw]
  have hfilter := filter_cleared_parts db1.parts newId
    (fun p hp => hfp p (by rw [← hdp]; exact hp))
  have hfetch := fetchParts_of_filter_fresh
    { users := db1.users, weeks := db1.weeks ++ [⟨newId, wk⟩],
      parts := (db1.parts ++ freshWeekParts newId).map (fun p =>
        if p.week_id == newId then
          { p with claimed_by := none, claimed_name := none, claimed_at := none }
        else p) } newId hfilter
  refine ⟨by rw [h1], ?_, ?_, ?_⟩
  · rw [h1]
    simp only
    rw [hfetch]
    unfold freshWeekParts
    rw [List.map_map, List.map_map]
    rfl
  · rw [h1]
    simp only
    rw [hfetch]
    simp [freshWeekParts]
  · intro r hr
    rw [h1] at hr
    simp only at hr
    rw [hfetch] at hr
    obtain ⟨p, hp, rfl⟩ := List.mem_map.mp hr
    obtain ⟨he, hb, hn, ha⟩ := freshWeekParts_fields hp
    unfold partToRow
    rw [hb, hn]
    exact ⟨rfl, rfl, rfl⟩

theorem resetWeek_creates_week_witness :
    (resetWeek exCfg exDbWeek "a1" "week-2" ⟨none, none⟩ "w2").result =
      .ok ("w2", fetchParts (resetWeek exCfg exDbWeek "a1" "week-2" ⟨none, none⟩ "w2").db "w2") ∧
    (fetchParts (resetWeek exCfg exDbWeek "a1" "week-2" ⟨none, none⟩ "w2").db "w2").map
        (fun r => r.number) =
      (List.range' 1 30).map (fun k => (k : ℚ)) ∧
    (fetchParts (resetWeek exCfg exDbWeek "a1" "week-2" ⟨none, none⟩ "w2").db "w2").length = 30 ∧
    ∀ r ∈ fetchParts (resetWeek exCfg exDbWeek "a1" "week-2" ⟨none, none⟩ "w2").db "w2",
      r.claimed_by = none ∧ r.claimed_name = none ∧ r.claimed_is_admin = none :=
  resetWeek_creates_week exCfg exDbWeek "a1" "week-2" ⟨none, none⟩ "w2" exDbWeek exAdmin
    (by decide) (by decide) (by decide) (by decide) (by decide)

/-! ## Claim C10 -/

theorem getUserById_error {db : DB} {uid : String} {e : Err}
    (h : getUserById db uid = .error e) : e = .USER_NOT_FOUND := by
  unfold getUserById at h
  split at h
  · exact absurd h (by simp)
  · cases h
    rfl

theorem resolveUser_error {cfg : Config} {db : DB} {uid : String} {pr : Profile} {e : Err}
    (h : resolveUser cfg db uid pr = .error e) : e = .USER_NOT_FOUND := by
  unfold resolveUser at h
  split at h
  · rename_i heq
    cases h
    exact getUserById_error heq
  · split at h
    · unfold updateUserProfile at h
      split at h
      · rename_i heq
        cases h
        exact getUserById_error heq
      · exact absurd h (by simp)
    · exact absurd h (by simp)

/-- C10 counterexample: `"2.5"` passes the `Number.isNaN` validation, but
binding `2.5` against the integer part-number column makes the store raise,
and the routes answer the generic 500 failures `CLAIM_FAILED` and
`RELEASE_FAILED` - not `PART_NOT_FOUND` as the claim asserts for every
numeric string. -/
theorem part_number_nonintegral_counterexample :
    (claimPart exCfg exDbWeek "u1" "w1" "2.5" ⟨none, none⟩ 9).result =
      .error .CLAIM_FAILED ∧
    (releasePart exDbWeek "u1" "w1" "2.5").result = .error .RELEASE_FAILED ∧
    (Except.error Err.CLAIM_FAILED : Except Err PartRow) ≠ .error .PART_NOT_FOUND ∧
    (Except.error Err.RELEASE_FAILED : Except Err PartRow) ≠ .error .PART_NOT_FOUND :=
  ⟨by decide, by decide, by decide, by decide⟩

/-- C10 (amended): the claim and release handlers answer `BAD_REQUEST`
exactly when the part path segment does not parse as a JS number (given a
nonempty week id): any numeric string passes the validation.  What happens
next depends on the store's integer bind: a value that binds (an integral
value in int4 range) but matches no part row - such as `"0"` or `"31"`
against a full 30-part week - fails `PART_NOT_FOUND`, while a value whose
bind raises (non-integrals such as `"2.5"`, infinities, out-of-range
integers) surfaces as the generic `CLAIM_FAILED`/`RELEASE_FAILED` route
failure instead. -/
theorem part_number_validation :
    (∀ (cfg : Config) (db : DB) (uid wk ns : String) (pr : Profile) (now : Nat),
        wk.isEmpty = false → jsNumber ns = none →
        (claimPart cfg db uid wk ns pr now).result = .error .BAD_REQUEST) ∧
    (∀ (cfg : Config) (db : DB) (uid wk ns : String) (pr : Profile) (now : Nat) (n : JsNum),
        wk.isEmpty = false → jsNumber ns = some n →
        (claimPart cfg db uid wk ns pr now).result ≠ .error .BAD_REQUEST) ∧
    (∀ (db : DB) (uid wk ns : String),
        wk.isEmpty = false → jsNumber ns = none →
        (releasePart db uid wk ns).result = .error .BAD_REQUEST) ∧
    (∀ (db : DB) (uid wk ns : String) (n : JsNum),
        wk.isEmpty = false → jsNumber ns = some n →
        (releasePart db uid wk ns).result ≠ .error .BAD_REQUEST) ∧
    (∀ (cfg : Config) (db : DB) (uid wk ns : String) (pr : Profile) (now : Nat) (n : JsNum)
        (user : User),
        wk.isEmpty = false → jsNumber ns = some n → getUserById db uid = .ok user →
        pgIntParam n = none →
        (claimPart cfg db uid wk ns pr now).result = .error .CLAIM_FAILED) ∧
    (∀ (db : DB) (uid wk ns : String) (n : JsNum) (user : User),
        wk.isEmpty = false → jsNumber ns = some n → getUserById db uid = .ok user →
        pgIntParam n = none →
        (releasePart db uid wk ns).result = .error .RELEASE_FAILED) ∧
    (∀ (cfg : Config) (db : DB) (uid wk ns : String) (pr : Profile) (now : Nat) (n : JsNum)
        (i : ℤ) (user : User),
        wk.isEmpty = false → jsNumber ns = some n → getUserById db uid = .ok user →
        pgIntParam n = some i → db.parts.find? (partMatches wk n) = none →
        (claimPart cfg db uid wk ns pr now).result = .error .PART_NOT_FOUND) ∧
    (∀ (db : DB) (uid wk ns : String) (n : JsNum) (i : ℤ) (user : User),
        wk.isEmpty = false → jsNumber ns = some n → getUserById db uid = .ok user →
        pgIntParam n = some i → db.parts.find? (partMatches wk n) = none →
        (releasePart db uid wk ns).result = .error .PART_NOT_FOUND) ∧
    (claimPart exCfg exDbWeek "u1" "w1" "0" ⟨none, none⟩ 9).result =
      .error .PART_NOT_FOUND ∧
    (claimPart exCfg exDbWeek "u1" "w1" "31" ⟨none, none⟩ 9).result =
      .error .PART_NOT_FOUND ∧
    (releasePart exDbWeek "u1" "w1" "0").result = .error .PART_NOT_FOUND ∧
    (claimPart exCfg exDbWeek "u1" "w1" "2.5" ⟨none, none⟩ 9).result =
      .error .CLAIM_FAILED ∧
    (releasePart exDbWeek "u1" "w1" "2.5").result = .error .RELEASE_FAILED := by
  refine ⟨?_, ?_, ?_, ?_, ?_, ?_, ?_, ?_,
    by decide, by decide, by decide, by decide, by decide⟩
  · intro cfg db uid wk ns pr now hwk hns
    unfold claimPart
    simp [hns]
  · intro cfg db uid wk ns pr now n hwk hn
    unfold claimPart
    simp only [hn]
    split
    · simp_all
    · split
      · rename_i heq
        have := resolveUser_error heq
        subst this
        simp
      · split
        · simp
        · split
          · simp
          · split <;> simp
  · intro db uid wk ns hwk hns
    unfold releasePart
    simp [hns]
  · intro db uid wk ns n hwk hn
    unfold releasePart
    simp only [hn]
    split
    · simp_all
    · split
      · rename_i heq
        have := getUserById_error heq
        subst this
        simp
      · split
        · simp
        · split
          · simp
          · split <;> simp
  · intro cfg db uid wk ns pr now n user hwk hn huser hbind
    obtain ⟨db1, u1, hres, _, hdp, _⟩ := @resolveUser_ok cfg db uid user pr huser
    unfold claimPart
    simp [hn, hwk, hres, hbind]
  · intro db uid wk ns n user hwk hn huser hbind
    unfold releasePart
    simp [hn, hwk, huser, hbind]
  · intro cfg db uid wk ns pr now n i user hwk hn huser hbind hfind
    obtain ⟨db1, u1, hres, _, hdp, _⟩ := @resolveUser_ok cfg db uid user pr huser
    have hpm := partMatchesInt_eq_of_bind hbind wk
    have hfind1 : db1.parts.find? (partMatches wk n) = none := by
      rw [hdp]
      exact hfind
    unfold claimPart
    simp [hn, hwk, hres, hbind, hpm, hfind1]
  · intro db uid wk ns n i user hwk hn huser hbind hfind
    have hpm := partMatchesInt_eq_of_bind hbind wk
    unfold releasePart
    simp [hn, hwk, huser, hbind, hpm, hfind]

theorem part_number_validation_witness :
    (claimPart exCfg exDbWeek "u1" "w1" "abc" ⟨none, none⟩ 9).result =
      .error .BAD_REQUEST ∧
    (releasePart exDbWeek "u1" "w1" "xyz").result = .error .BAD_REQUEST :=
  ⟨part_number_validation.1 exCfg exDbWeek "u1" "w1" "abc" ⟨none, none⟩ 9
      (by decide) (by decide),
   part_number_validation.2.2.1 exDbWeek "u1" "w1" "xyz" (by decide) (by decide)⟩

end Khatma
